import Mathlib

/-!
Shallow embedding of the FleetZ authentication/session core:
the token codec (`tokenService`), the session manager
(`login`, `refreshToken`, `logout`, `changePassword` from the auth
controller), the request authenticator middleware, and the realtime
location gateway (`setupSockets`).

Cryptographic primitives (JWT signatures, SHA-256, bcrypt) are modelled
symbolically in the standard Dolev-Yao style: a signed token is a record
carrying its payload together with the secret, issuer and audience it was
signed with, and verification compares these fields; a hash is an
injective constructor applied to the preimage, compared only for
equality.  Time is an abstract `Nat` of milliseconds supplied to each
operation (the code reads `Date.now()`); randomness (`generateJti`,
`crypto.randomBytes`) is modelled by passing the freshly generated
identifier as an explicit argument.
-/

namespace FleetZ

/-- User roles, from the `role` enum of the User schema. -/
inductive Role where
  | admin
  | manager
  | driver
deriving DecidableEq, Repr

/-- bcrypt hashing, modelled symbolically.  Real bcrypt output always
starts with `"$2b$"`; the pre-save hook of the User schema relies on
this to skip re-hashing an already-hashed value. -/
def bcryptHash (raw : String) : String := "$2b$12$" ++ raw

/-- JWT claims payload as produced by `issueTokens`:
`{ id, role, tokenVersion, jti }`.  `tokenVersion : Option Nat` models a
JSON field that is either a number (`some v`) or absent / not a number
(`none`), which the middleware distinguishes via
`typeof payload.tokenVersion === 'number'`. -/
structure Claims where
  id : String
  role : Role
  tokenVersion : Option Nat
  jti : String
deriving DecidableEq, Repr

/-- A signed JWT, modelled symbolically: the token carries the payload
plus the signing secret, issuer, audience and expiry claim.  Forging a
token for a secret one does not hold is impossible in this model, which
is the idealisation of an unforgeable MAC. -/
structure SignedToken where
  payload : Claims
  secret : String
  issuer : String
  audience : String
  exp : Nat
deriving DecidableEq, Repr

/-- The two error classes thrown by `jsonwebtoken`'s `verify` that the
code distinguishes by name. -/
inductive VerifyError where
  | TokenExpiredError
  | JsonWebTokenError
deriving DecidableEq, Repr

/-- `jwt.verify(token, secret, { issuer, audience })` at time `now`:
signature is checked first, then expiry, then issuer/audience claims.
A token is expired once `now` reaches `exp`. -/
def jwtVerify (tok : SignedToken) (secret iss aud : String) (now : Nat) :
    Except VerifyError Claims :=
  if tok.secret ≠ secret then .error .JsonWebTokenError
  else if tok.exp ≤ now then .error .TokenExpiredError
  else if tok.issuer ≠ iss ∨ tok.audience ≠ aud then .error .JsonWebTokenError
  else .ok tok.payload

/-- Access-token signing secret (`env.jwtSecret`, externally supplied). -/
def jwtSecret : String := "env:JWT_SECRET"

/-- Refresh-token signing secret (`env.jwtRefreshSecret`), distinct from
the access secret. -/
def jwtRefreshSecret : String := "env:JWT_REFRESH_SECRET"

/-- Fixed issuer string used on every sign and verify call. -/
def tokenIssuer : String := "smart-delivery-api"

/-- Fixed audience string used on every sign and verify call. -/
def tokenAudience : String := "smart-delivery-clients"

/-- Access-token lifetime in ms (`env.jwtExpire || '15m'`, default). -/
def accessTtlMs : Nat := 15 * 60 * 1000

/-- Refresh-token lifetime in ms (`env.jwtRefreshExpire || '7d'`,
default; `msFromJwtExp '7d'` yields the same number). -/
def refreshTtlMs : Nat := 7 * 24 * 60 * 60 * 1000

/-- `signAccessToken(payload)` from the token service, at time `now`. -/
def signAccessToken (payload : Claims) (now : Nat) : SignedToken :=
  { payload := payload
    secret := jwtSecret
    issuer := tokenIssuer
    audience := tokenAudience
    exp := now + accessTtlMs }

/-- `signRefreshToken(payload)` from the token service, at time `now`. -/
def signRefreshToken (payload : Claims) (now : Nat) : SignedToken :=
  { payload := payload
    secret := jwtRefreshSecret
    issuer := tokenIssuer
    audience := tokenAudience
    exp := now + refreshTtlMs }

/-- A SHA-256 digest, modelled symbolically: compared only for equality,
and `hashToken` is injective by construction (idealised collision-free
one-way hash over the raw token string). -/
structure Digest where
  preimage : SignedToken
deriving DecidableEq, Repr

/-- `hashToken(token)`: SHA-256 hex digest of the raw token string. -/
def hashToken (token : SignedToken) : Digest := ⟨token⟩

/-- A persisted user document (Credential Store).  Schema defaults:
`isActive: true`, `tokenVersion: 0`. -/
structure User where
  id : String
  email : String
  role : Role
  passwordHash : String
  isActive : Bool
  tokenVersion : Nat
  lastSeen : Option Nat
deriving DecidableEq, Repr

/-- A fresh user document as the User schema creates it: `isActive`
defaults to `true` and `tokenVersion` defaults to `0`. -/
def newUser (id email : String) (role : Role) (passwordHash : String)
    (now : Nat) : User :=
  { id := id
    email := email
    role := role
    passwordHash := passwordHash
    isActive := true
    tokenVersion := 0
    lastSeen := some now }

/-- `user.verifyPassword(password)` = `bcrypt.compare(password,
this.passwordHash)`, symbolically: the stored hash is the bcrypt hash of
the presented password. -/
def verifyPassword (user : User) (password : String) : Bool :=
  user.passwordHash == bcryptHash password

/-- `str.startsWith('$2b$')`, written out over the character list. -/
def startsWith2b (s : String) : Bool :=
  match s.data with
  | '$' :: '2' :: 'b' :: '$' :: _ => true
  | _ => false

/-- The pre-save hook of the User schema: hash `passwordHash` unless it
already looks like a bcrypt hash (starts with `"$2b$"`). -/
def preSaveHash (passwordHash : String) : String :=
  if startsWith2b passwordHash then passwordHash else bcryptHash passwordHash

/-- A persisted refresh-token ledger row (RefreshToken model). -/
structure RefreshTokenRecord where
  userId : String
  jti : String
  hashedToken : Digest
  expiresAt : Nat
  revokedAt : Option Nat
  ip : Option String
  userAgent : Option String
  createdAt : Nat
deriving DecidableEq, Repr

/-- The persistent state the session core reads and writes: the user
collection and the refresh-token ledger. -/
structure Db where
  users : List User
  tokens : List RefreshTokenRecord
deriving DecidableEq, Repr

/-- `User.findById(id)`: first document whose `_id` matches. -/
def findById (users : List User) (id : String) : Option User :=
  users.find? (fun u => u.id == id)

/-- ASCII lowercasing of one character (`String.prototype.toLowerCase`
restricted to the ASCII range, which covers the email grammar the User
schema accepts). -/
def lowerChar (c : Char) : Char :=
  if 'A' ≤ c ∧ c ≤ 'Z' then Char.ofNat (c.toNat + 32) else c

/-- `email.toLowerCase()`. -/
def toLowerCase (s : String) : String := ⟨s.data.map lowerChar⟩

/-- `User.findByEmail(email)` = `findOne({ email: email.toLowerCase() })`. -/
def findByEmail (users : List User) (email : String) : Option User :=
  users.find? (fun u => u.email == toLowerCase email)

/-- `user.save()`: write the (single) document with this `_id` back. -/
def saveUser (users : List User) (user : User) : List User :=
  users.map (fun v => if v.id == user.id then user else v)

/-- `RefreshToken.findOne({ userId, jti })`. -/
def findRecord (tokens : List RefreshTokenRecord) (userId jti : String) :
    Option RefreshTokenRecord :=
  tokens.find? (fun r => r.userId == userId && r.jti == jti)

/-- `revokeRefreshTokenByJti(userId, jti)` =
`updateOne({ userId, jti, revokedAt: null }, { $set: { revokedAt: new Date() } })`:
set `revokedAt` on the first matching unrevoked row, leave every other
row untouched. -/
def revokeRefreshTokenByJti (tokens : List RefreshTokenRecord)
    (userId jti : String) (now : Nat) : List RefreshTokenRecord :=
  match tokens with
  | [] => []
  | r :: rs =>
    if r.userId == userId && r.jti == jti && r.revokedAt == none then
      { r with revokedAt := some now } :: rs
    else
      r :: revokeRefreshTokenByJti rs userId jti now

/-- `revokeAllUserRefreshTokens(userId)` =
`updateMany({ userId, revokedAt: null }, { $set: { revokedAt: new Date() } })`. -/
def revokeAllUserRefreshTokens (tokens : List RefreshTokenRecord)
    (userId : String) (now : Nat) : List RefreshTokenRecord :=
  tokens.map (fun r =>
    if r.userId == userId && r.revokedAt == none then
      { r with revokedAt := some now }
    else r)

/-- Reasons `isRefreshTokenValid` reports for an invalid record. -/
inductive InvalidReason where
  | not_found
  | revoked
  | hash_mismatch
  | expired
deriving DecidableEq, Repr

/-- Result shape of `isRefreshTokenValid`: `{ valid, reason? }`. -/
inductive Validity where
  | valid
  | invalid (reason : InvalidReason)
deriving DecidableEq, Repr

/-- `isRefreshTokenValid({ userId, jti, token })` from the token
service: look the row up by `(userId, jti)` and check revocation, hash
and expiry in the source's order (`expiresAt <= now` is invalid). -/
def isRefreshTokenValid (tokens : List RefreshTokenRecord)
    (userId jti : String) (token : SignedToken) (now : Nat) : Validity :=
  match findRecord tokens userId jti with
  | none => .invalid .not_found
  | some doc =>
    if doc.revokedAt ≠ none then .invalid .revoked
    else if doc.hashedToken ≠ hashToken token then .invalid .hash_mismatch
    else if doc.expiresAt ≤ now then .invalid .expired
    else .valid

/-- `persistRefreshToken({...})`: hash the raw refresh token and append
a fresh unrevoked ledger row. -/
def persistRefreshToken (tokens : List RefreshTokenRecord)
    (userId jti : String) (refreshTok : SignedToken) (expiresInMs : Nat)
    (now : Nat) (ip userAgent : Option String) : List RefreshTokenRecord :=
  tokens ++ [{ userId := userId
               jti := jti
               hashedToken := hashToken refreshTok
               expiresAt := now + expiresInMs
               revokedAt := none
               ip := ip
               userAgent := userAgent
               createdAt := now }]

/-- Result of `issueTokens`: the signed pair plus the persisted row. -/
structure IssueResult where
  accessToken : SignedToken
  refreshTok : SignedToken
  record : RefreshTokenRecord
deriving DecidableEq, Repr

/-- `issueTokens(user, req)` from the auth controller, with the fresh
`jti` (from `generateJti()`) passed explicitly: both payloads embed the
user's current `tokenVersion` and the shared `jti`. -/
def issueTokens (user : User) (jti : String) (now : Nat)
    (ip userAgent : Option String) : IssueResult :=
  let payload : Claims :=
    { id := user.id, role := user.role
      tokenVersion := some user.tokenVersion, jti := jti }
  let accessToken := signAccessToken payload now
  let refreshTok := signRefreshToken payload now
  { accessToken := accessToken
    refreshTok := refreshTok
    record := { userId := user.id
                jti := jti
                hashedToken := hashToken refreshTok
                expiresAt := now + refreshTtlMs
                revokedAt := none
                ip := ip
                userAgent := userAgent
                createdAt := now } }

/-- A JSON error envelope as produced by `errorResponse(res, message,
status)`: the message string and the HTTP status code. -/
structure ErrResponse where
  message : String
  status : Nat
deriving DecidableEq, Repr

/-- Safe user projection `user.toSafeObject()`: every field except
`passwordHash`. -/
structure SafeUser where
  id : String
  email : String
  role : Role
  isActive : Bool
  tokenVersion : Nat
  lastSeen : Option Nat
deriving DecidableEq, Repr

/-- `user.toSafeObject()`. -/
def toSafeObject (user : User) : SafeUser :=
  { id := user.id
    email := user.email
    role := user.role
    isActive := user.isActive
    tokenVersion := user.tokenVersion
    lastSeen := user.lastSeen }

/-- Caller-visible outcome of `POST /auth/login`. -/
inductive LoginResult where
  | failure (e : ErrResponse)
  | success (user : SafeUser) (accessToken refreshTok : SignedToken)
deriving DecidableEq, Repr

/-- The `login` controller.  Falsy request fields (absent or empty
strings) hit the 400 guard; then `findByEmail`, the `isActive` check,
`verifyPassword`, `updateLastSeen`, and `issueTokens`. -/
def login (db : Db) (email password : String) (jti : String) (now : Nat)
    (ip userAgent : Option String) : LoginResult × Db :=
  if email = "" ∨ password = "" then
    (.failure ⟨"Email and password are required", 400⟩, db)
  else
    match findByEmail db.users email with
    | none => (.failure ⟨"Invalid credentials", 401⟩, db)
    | some user =>
      if user.isActive = false then
        (.failure ⟨"Account is deactivated", 401⟩, db)
      else if verifyPassword user password = false then
        (.failure ⟨"Invalid credentials", 401⟩, db)
      else
        let user1 := { user with lastSeen := some now }
        let issued := issueTokens user1 jti now ip userAgent
        (.success (toSafeObject user1) issued.accessToken issued.refreshTok,
         { users := saveUser db.users user1
           tokens := db.tokens ++ [issued.record] })

/-- Caller-visible outcome of `POST /auth/refresh`. -/
inductive RefreshResult where
  | failure (e : ErrResponse)
  | success (accessToken refreshTok : SignedToken)
deriving DecidableEq, Repr

/-- The `refreshToken` controller.  `presented = none` models an absent
`refreshToken` body field.  Decode under the refresh secret; load the
user; compare the decoded `tokenVersion` against the live one with
strict `!==` (an absent claim never equals a number); consult the
ledger; on a stale version or an invalid ledger row revoke **all** of
the user's unrevoked rows; otherwise rotate: revoke the consumed row,
issue a fresh pair under the supplied fresh `jti`, persist its row. -/
def refreshToken (db : Db) (presented : Option SignedToken) (jti : String)
    (now : Nat) (ip userAgent : Option String) : RefreshResult × Db :=
  match presented with
  | none => (.failure ⟨"Refresh token is required", 400⟩, db)
  | some tok =>
    match jwtVerify tok jwtRefreshSecret tokenIssuer tokenAudience now with
    | .error _ => (.failure ⟨"Invalid refresh token", 401⟩, db)
    | .ok decoded =>
      match findById db.users decoded.id with
      | none => (.failure ⟨"Invalid refresh token", 401⟩, db)
      | some user =>
        if user.isActive = false then
          (.failure ⟨"Invalid refresh token", 401⟩, db)
        else if decoded.tokenVersion ≠ some user.tokenVersion then
          (.failure ⟨"Invalid refresh token", 401⟩,
           { db with tokens := revokeAllUserRefreshTokens db.tokens user.id now })
        else
          match isRefreshTokenValid db.tokens user.id decoded.jti tok now with
          | .invalid _ =>
            (.failure ⟨"Invalid refresh token", 401⟩,
             { db with tokens := revokeAllUserRefreshTokens db.tokens user.id now })
          | .valid =>
            let rotated := revokeRefreshTokenByJti db.tokens user.id decoded.jti now
            let issued := issueTokens user jti now ip userAgent
            (.success issued.accessToken issued.refreshTok,
             { db with tokens := rotated ++ [issued.record] })

/-- A generic success/failure JSON envelope with its HTTP status, used
by the operations whose data payload is `null`. -/
structure Response where
  ok : Bool
  message : String
  status : Nat
deriving DecidableEq, Repr

/-- The `logout` controller: best-effort decode of the optional refresh
token inside a try/catch that swallows every error; if the decoded
payload has truthy `id` and `jti` (non-empty strings), revoke that one
`(userId, jti)` row; in every case answer 200. -/
def logout (db : Db) (presented : Option SignedToken) (now : Nat) :
    Response × Db :=
  let db' :=
    match presented with
    | none => db
    | some tok =>
      match jwtVerify tok jwtRefreshSecret tokenIssuer tokenAudience now with
      | .error _ => db
      | .ok decoded =>
        if decoded.id ≠ "" ∧ decoded.jti ≠ "" then
          { db with tokens := revokeRefreshTokenByJti db.tokens decoded.id decoded.jti now }
        else db
  (⟨true, "Logout successful", 200⟩, db')

/-- The `changePassword` controller, for the authenticated user
`userId` (`req.user.id`).  Guards: falsy fields → 400, short new
password → 400; a missing user document makes `user.verifyPassword`
throw, surfacing as the generic 500 of `asyncHandler`.  On success:
store the new password (hashed by the pre-save hook), bump
`tokenVersion` by one (`(tokenVersion || 0) + 1`), and revoke every
unrevoked refresh row of the user. -/
def changePassword (db : Db) (userId currentPassword newPassword : String)
    (now : Nat) : Response × Db :=
  if currentPassword = "" ∨ newPassword = "" then
    (⟨false, "Current password and new password are required", 400⟩, db)
  else if newPassword.length < 6 then
    (⟨false, "New password must be at least 6 characters long", 400⟩, db)
  else
    match findById db.users userId with
    | none => (⟨false, "Internal server error", 500⟩, db)
    | some user =>
      if verifyPassword user currentPassword = false then
        (⟨false, "Current password is incorrect", 400⟩, db)
      else
        let user1 := { user with
                       passwordHash := preSaveHash newPassword
                       tokenVersion := user.tokenVersion + 1 }
        (⟨true, "Password changed successfully", 200⟩,
         { users := saveUser db.users user1
           tokens := revokeAllUserRefreshTokens db.tokens user.id now })

/-- Outcome of the request-authenticator middleware: either a 401 error
envelope or `req.user = { id, role, tokenVersion }` and `next()`. -/
inductive AuthOutcome where
  | failure (e : ErrResponse)
  | ok (id : String) (role : Role) (tokenVersion : Nat)
deriving DecidableEq, Repr

/-- The tokenVersion-checking `authenticate` middleware: extract the
bearer token (`none` models a missing/non-Bearer header), verify it as
an access token, load the user, reject a missing or inactive user, and
reject a live-version mismatch — but only when the payload carries a
numeric `tokenVersion` (`typeof payload.tokenVersion === 'number'`). -/
def authenticate (users : List User) (bearer : Option SignedToken)
    (now : Nat) : AuthOutcome :=
  match bearer with
  | none => .failure ⟨"No token provided", 401⟩
  | some tok =>
    match jwtVerify tok jwtSecret tokenIssuer tokenAudience now with
    | .error .TokenExpiredError => .failure ⟨"Token expired", 401⟩
    | .error .JsonWebTokenError => .failure ⟨"Invalid token", 401⟩
    | .ok payload =>
      match findById users payload.id with
      | none => .failure ⟨"Invalid token", 401⟩
      | some user =>
        if user.isActive = false then .failure ⟨"Invalid token", 401⟩
        else
          match payload.tokenVersion with
          | some v =>
            if v ≠ user.tokenVersion then .failure ⟨"Token expired", 401⟩
            else .ok user.id user.role user.tokenVersion
          | none => .ok user.id user.role user.tokenVersion

/-- The socket-handshake middleware (`io.use`): same verification chain
as `authenticate`, but every failure is the single `unauthorized`
connection error (`none`); success attaches
`socket.user = { id, role, tokenVersion }`. -/
def socketAuth (users : List User) (token : Option SignedToken)
    (now : Nat) : Option (String × Role × Nat) :=
  match token with
  | none => none
  | some tok =>
    match jwtVerify tok jwtSecret tokenIssuer tokenAudience now with
    | .error _ => none
    | .ok payload =>
      match findById users payload.id with
      | none => none
      | some user =>
        if user.isActive = false then none
        else
          match payload.tokenVersion with
          | some v =>
            if v ≠ user.tokenVersion then none
            else some (user.id, user.role, user.tokenVersion)
          | none => some (user.id, user.role, user.tokenVersion)

/-- A `coords` object from a `rider:location` payload: each field is
`some n` when the JSON value is a number, `none` when it is absent or of
another type (the handler tests `typeof coords.lat !== 'number'`). -/
structure Coords where
  lat : Option Int
  lng : Option Int
deriving DecidableEq, Repr

/-- An incoming `rider:location` payload: `coords` may be absent
entirely (`payload?.coords` falsy). -/
structure LocPayload where
  coords : Option Coords
  speed : Option Int
  heading : Option Int
deriving DecidableEq, Repr

/-- The document built for a valid sample:
`{ riderId, coords, speed, heading, ts }`, stored in `latestByRider` and
persisted via `Location.create`. -/
structure LocationDoc where
  riderId : String
  coords : Coords
  speed : Option Int
  heading : Option Int
  ts : Nat
deriving DecidableEq, Repr

/-- Gateway state: the in-memory `latestByRider` map (insertion-ordered
association list, JS `Map` semantics), the durably recorded samples
(`Location.create`), and whether the broadcast timer has been started. -/
structure Gateway where
  latestByRider : List (String × LocationDoc)
  persisted : List LocationDoc
  timerStarted : Bool
deriving DecidableEq, Repr

/-- Gateway state at process start: empty map, no timer. -/
def initialGateway : Gateway :=
  { latestByRider := [], persisted := [], timerStarted := false }

/-- `Map.set(key, value)`: overwrite in place when the key exists,
append otherwise. -/
def mapSet (m : List (String × LocationDoc)) (k : String)
    (v : LocationDoc) : List (String × LocationDoc) :=
  if m.any (fun p => p.1 == k) then
    m.map (fun p => if p.1 == k then (k, v) else p)
  else m ++ [(k, v)]

/-- The guard of the `rider:location` handler: the payload has a
`coords` object with numeric `lat` and numeric `lng`. -/
def validSample (p : LocPayload) : Bool :=
  match p.coords with
  | none => false
  | some c => c.lat.isSome && c.lng.isSome

/-- The `rider:location` handler for an authenticated driver `riderId`:
an invalid payload returns without touching any state (and without
emitting anything to the sender); a valid one updates `latestByRider`,
persists the document, and lazily starts the broadcast timer. -/
def riderLocation (gw : Gateway) (riderId : String) (p : LocPayload)
    (now : Nat) : Gateway :=
  match p.coords with
  | none => gw
  | some c =>
    if c.lat.isSome && c.lng.isSome then
      let doc : LocationDoc :=
        { riderId := riderId, coords := c, speed := p.speed
          heading := p.heading, ts := now }
      { latestByRider := mapSet gw.latestByRider riderId doc
        persisted := gw.persisted ++ [doc]
        timerStarted := true }
    else gw

/-- One tick of the broadcast interval: `none` when the map is empty
(nothing emitted), otherwise the `riders` array of the `fleet:update`
event — all latest per-driver samples. -/
def fleetUpdate (gw : Gateway) : Option (List LocationDoc) :=
  if gw.latestByRider.isEmpty then none
  else some (gw.latestByRider.map (fun p => p.2))

/-- Run a sequence of `rider:location` events from process start. -/
def runEvents (evs : List (String × LocPayload × Nat)) : Gateway :=
  evs.foldl (fun gw e => riderLocation gw e.1 e.2.1 e.2.2) initialGateway

/-- One step of the session state machine: a single `login`,
`refreshToken`, `logout` or `changePassword` call with arbitrary
arguments, observed through its effect on the persistent state. -/
inductive Step : Db → Db → Prop where
  | login (db : Db) (email password jti : String) (now : Nat)
      (ip userAgent : Option String) :
      Step db (FleetZ.login db email password jti now ip userAgent).2
  | refresh (db : Db) (presented : Option SignedToken) (jti : String)
      (now : Nat) (ip userAgent : Option String) :
      Step db (FleetZ.refreshToken db presented jti now ip userAgent).2
  | logout (db : Db) (presented : Option SignedToken) (now : Nat) :
      Step db (FleetZ.logout db presented now).2
  | changePassword (db : Db) (userId currentPassword newPassword : String)
      (now : Nat) :
      Step db (FleetZ.changePassword db userId currentPassword newPassword now).2

/-- Any interleaving of session-machine steps. -/
def Reach : Db → Db → Prop := Relation.ReflTransGen Step

/-- User `_id`s are unique across the user collection (MongoDB `_id`
uniqueness). -/
def UsersUniq (users : List User) : Prop :=
  ∀ u1 ∈ users, ∀ u2 ∈ users, u1.id = u2.id → u1 = u2

/-- The `(userId, jti)` pair is unique across the ledger (the
`RefreshTokenSchema.index({ userId: 1, jti: 1 }, { unique: true })`
constraint). -/
def LedgerUniq (tokens : List RefreshTokenRecord) : Prop :=
  ∀ r1 ∈ tokens, ∀ r2 ∈ tokens,
    r1.userId = r2.userId → r1.jti = r2.jti → r1 = r2

/-- Every document in the gateway's `latestByRider` map has numeric
coordinates. -/
def GatewayInv (gw : Gateway) : Prop :=
  ∀ pr ∈ gw.latestByRider, pr.2.coords.lat.isSome ∧ pr.2.coords.lng.isSome

/- ### Shared helper lemmas -/

theorem find?_map_comm {α : Type} (f : α → α) (p : α → Bool)
    (hf : ∀ a, p (f a) = p a) (l : List α) :
    List.find? p (l.map f) = (List.find? p l).map f := by
  induction l with
  | nil => rfl
  | cons a as ih =>
    simp only [List.map_cons, List.find?_cons, hf a]
    cases hp : p a <;> simp [ih]

theorem findRecord_some {l : List RefreshTokenRecord} {uid jti : String}
    {r : RefreshTokenRecord} (h : findRecord l uid jti = some r) :
    r.userId = uid ∧ r.jti = jti ∧ r ∈ l := by
  have hp := List.find?_some h
  have hm := List.mem_of_find?_eq_some h
  simp only [Bool.and_eq_true, beq_iff_eq] at hp
  exact ⟨hp.1, hp.2, hm⟩

theorem findRecord_isSome {l : List RefreshTokenRecord} {uid jti : String}
    {r : RefreshTokenRecord} (hm : r ∈ l) (hu : r.userId = uid)
    (hj : r.jti = jti) : ∃ r', findRecord l uid jti = some r' := by
  have : (List.find? (fun x => x.userId == uid && x.jti == jti) l).isSome := by
    rw [List.find?_isSome]
    exact ⟨r, hm, by simp [hu, hj]⟩
  obtain ⟨r', hr'⟩ := Option.isSome_iff_exists.mp this
  exact ⟨r', hr'⟩

theorem findRecord_append_left {l : List RefreshTokenRecord}
    {uid jti : String} {r : RefreshTokenRecord} (l2 : List RefreshTokenRecord)
    (h : findRecord l uid jti = some r) :
    findRecord (l ++ l2) uid jti = some r := by
  simp only [findRecord] at h ⊢
  rw [List.find?_append, h]
  rfl

theorem findById_some {users : List User} {id : String} {u : User}
    (h : findById users id = some u) : u.id = id ∧ u ∈ users := by
  have hp := List.find?_some h
  have hm := List.mem_of_find?_eq_some h
  simp only [beq_iff_eq] at hp
  exact ⟨hp, hm⟩

theorem findById_saveUser (users : List User) (u1 : User) (id : String) :
    findById (saveUser users u1) id
      = (findById users id).map (fun u => if u.id == u1.id then u1 else u) := by
  apply find?_map_comm
  intro a
  by_cases ha : a.id = u1.id
  · simp [ha]
  · simp [ha]

theorem findRecord_revokeAll (l : List RefreshTokenRecord)
    (uid' uid jti : String) (now : Nat) :
    findRecord (revokeAllUserRefreshTokens l uid' now) uid jti
      = (findRecord l uid jti).map
          (fun r => if r.userId == uid' && r.revokedAt == none then
                      { r with revokedAt := some now } else r) := by
  apply find?_map_comm
  intro a
  by_cases ha : a.userId = uid' ∧ a.revokedAt = none
  · simp [ha.1, ha.2]
  · simp only [Bool.and_eq_true, beq_iff_eq] at ha ⊢
    rw [if_neg (by simpa using ha)]

theorem findRecord_revokeOne (l : List RefreshTokenRecord)
    (u' j' uid jti : String) (now : Nat) (r : RefreshTokenRecord)
    (h : findRecord l uid jti = some r) :
    findRecord (revokeRefreshTokenByJti l u' j' now) uid jti = some r ∨
      (findRecord (revokeRefreshTokenByJti l u' j' now) uid jti
          = some { r with revokedAt := some now } ∧ r.revokedAt = none) := by
  induction l with
  | nil => simp [findRecord] at h
  | cons a as ih =>
    rw [findRecord, List.find?_cons] at h
    unfold revokeRefreshTokenByJti
    by_cases hc : (a.userId == u' && a.jti == j' && a.revokedAt == none) = true
    · rw [if_pos hc]
      have hp' : ∀ b : Bool, (a.userId == uid && a.jti == jti) = b →
          (({ a with revokedAt := some now } : RefreshTokenRecord).userId == uid
            && ({ a with revokedAt := some now } : RefreshTokenRecord).jti == jti) = b := by
        intro b hb
        exact hb
      cases hp : (a.userId == uid && a.jti == jti) with
      | true =>
        rw [hp] at h
        have ha : a = r := by simpa using h
        subst ha
        right
        constructor
        · simp only [findRecord, List.find?_cons, hp' true hp]
        · simp only [Bool.and_eq_true, beq_iff_eq] at hc
          simpa using hc.2
      | false =>
        rw [hp] at h
        left
        simp only [findRecord, List.find?_cons, hp' false hp]
        exact h
    · rw [if_neg hc]
      cases hp : (a.userId == uid && a.jti == jti) with
      | true =>
        rw [hp] at h
        have ha : a = r := by simpa using h
        subst ha
        left
        simp only [findRecord, List.find?_cons, hp]
      | false =>
        rw [hp] at h
        rcases ih h with h1 | h2
        · left
          simp only [findRecord, List.find?_cons, hp]
          exact h1
        · right
          refine ⟨?_, h2.2⟩
          simp only [findRecord, List.find?_cons, hp]
          exact h2.1

theorem revokeOne_id (l : List RefreshTokenRecord) (uid jti : String)
    (now : Nat)
    (h : ∀ x ∈ l, ¬(x.userId = uid ∧ x.jti = jti ∧ x.revokedAt = none)) :
    revokeRefreshTokenByJti l uid jti now = l := by
  induction l with
  | nil => rfl
  | cons a as ih =>
    unfold revokeRefreshTokenByJti
    rw [if_neg, ih]
    · intro x hx
      exact h x (List.mem_cons_of_mem a hx)
    · intro hc
      simp only [Bool.and_eq_true, beq_iff_eq] at hc
      exact h a (List.mem_cons_self a as) ⟨hc.1.1, hc.1.2, by simpa using hc.2⟩

theorem revokeOne_decomp (l : List RefreshTokenRecord) (uid jti : String)
    (now : Nat) (r : RefreshTokenRecord)
    (hfind : findRecord l uid jti = some r) (hnone : r.revokedAt = none) :
    ∃ l1 l2, l = l1 ++ r :: l2 ∧
      (∀ x ∈ l1, ¬(x.userId = uid ∧ x.jti = jti)) ∧
      revokeRefreshTokenByJti l uid jti now
        = l1 ++ { r with revokedAt := some now } :: l2 := by
  induction l with
  | nil => simp [findRecord] at hfind
  | cons a as ih =>
    rw [findRecord, List.find?_cons] at hfind
    cases hp : (a.userId == uid && a.jti == jti) with
    | true =>
      rw [hp] at hfind
      have ha : a = r := by simpa using hfind
      subst ha
      simp only [Bool.and_eq_true, beq_iff_eq] at hp
      refine ⟨[], as, by simp, by simp, ?_⟩
      unfold revokeRefreshTokenByJti
      rw [if_pos (by simp [hp.1, hp.2, hnone])]
      simp
    | false =>
      rw [hp] at hfind
      obtain ⟨l1, l2, hl, hnotin, hrw⟩ := ih hfind
      refine ⟨a :: l1, l2, by simp [hl], ?_, ?_⟩
      · intro x hx
        rcases List.mem_cons.mp hx with hxa | hxl
        · subst hxa
          intro hc
          simp [hc.1, hc.2] at hp
        · exact hnotin x hxl
      · unfold revokeRefreshTokenByJti
        have hcneg : ¬((a.userId == uid && a.jti == jti && a.revokedAt == none) = true) := by
          intro hc
          rw [Bool.and_eq_true, Bool.and_eq_true] at hc
          rw [hc.1.1, hc.1.2] at hp
          simp at hp
        rw [if_neg hcneg, hrw]
        simp

theorem revokeAll_userRevoked (l : List RefreshTokenRecord) (uid : String)
    (now : Nat) :
    ∀ r ∈ revokeAllUserRefreshTokens l uid now,
      r.userId = uid → r.revokedAt.isSome := by
  intro r hr hru
  simp only [revokeAllUserRefreshTokens, List.mem_map] at hr
  obtain ⟨r0, _, hmap⟩ := hr
  by_cases hc : (r0.userId == uid && r0.revokedAt == none) = true
  · rw [if_pos hc] at hmap
    rw [← hmap]
    rfl
  · rw [if_neg hc] at hmap
    subst hmap
    simp only [Bool.and_eq_true, beq_iff_eq] at hc
    cases hrv : r0.revokedAt with
    | some t => simp
    | none => exact absurd ⟨hru, by simp [hrv]⟩ hc

/- ### Witness fixtures: one concrete user, token pair and ledger row -/

/-- A concrete active user with `tokenVersion 0`. -/
def wUser : User :=
  { id := "u1", email := "a@b.c", role := .driver
    passwordHash := bcryptHash "password123", isActive := true
    tokenVersion := 0, lastSeen := none }

/-- The claims payload issued for `wUser` under `jti = "j1"`. -/
def wPayload : Claims :=
  { id := "u1", role := .driver, tokenVersion := some 0, jti := "j1" }

/-- A concrete access token for `wPayload`, signed at time 0. -/
def wAccessTok : SignedToken := signAccessToken wPayload 0

/-- A concrete refresh token for `wPayload`, signed at time 0. -/
def wRefreshTok : SignedToken := signRefreshToken wPayload 0

/-- The ledger row persisted for `wRefreshTok`. -/
def wRec : RefreshTokenRecord :=
  { userId := "u1", jti := "j1", hashedToken := hashToken wRefreshTok
    expiresAt := refreshTtlMs, revokedAt := none, ip := none
    userAgent := none, createdAt := 0 }

/-- A concrete post-login state: `wUser` logged in, `wRec` persisted. -/
def wDb : Db := { users := [wUser], tokens := [wRec] }

/- ### Claims -/

/-- C7: for every claims payload and any verification time before the
token's expiry, verifying an access token produced by `signAccessToken`
with the access secret, issuer and audience yields claims equal to the
input payload. -/
theorem claim_C7_roundtrip (p : Claims) (now t : Nat)
    (h : t < now + accessTtlMs) :
    jwtVerify (signAccessToken p now) jwtSecret tokenIssuer tokenAudience t
      = .ok p := by
  have h2 : ¬(now + accessTtlMs ≤ t) := by omega
  simp [jwtVerify, signAccessToken, h2]

/-- Witness for C7 at a concrete payload and time. -/
theorem claim_C7_roundtrip_witness :
    jwtVerify (signAccessToken wPayload 0) jwtSecret tokenIssuer
      tokenAudience 7 = .ok wPayload :=
  claim_C7_roundtrip wPayload 0 7 (by norm_num [accessTtlMs])

/-- C5: under the `(userId, jti)` unique-index invariant, the ledger
validity check accepts iff a record for `(userId, jti)` exists, is
unrevoked, expires strictly in the future, and stores the hash of the
presented raw token; absence, revocation, hash mismatch and
past-or-present expiry each make it invalid. -/
theorem claim_C5_validity_iff (tokens : List RefreshTokenRecord)
    (uid jti : String) (tok : SignedToken) (now : Nat)
    (huniq : LedgerUniq tokens) :
    isRefreshTokenValid tokens uid jti tok now = .valid ↔
      ∃ r ∈ tokens, r.userId = uid ∧ r.jti = jti ∧ r.revokedAt = none ∧
        now < r.expiresAt ∧ r.hashedToken = hashToken tok := by
  constructor
  · intro hv
    cases hf : findRecord tokens uid jti with
    | none => simp [isRefreshTokenValid, hf] at hv
    | some doc =>
      simp only [isRefreshTokenValid, hf] at hv
      obtain ⟨hu, hj, hm⟩ := findRecord_some hf
      by_cases h1 : doc.revokedAt = none
      · rw [if_neg (fun hne => hne h1)] at hv
        by_cases h2 : doc.hashedToken = hashToken tok
        · rw [if_neg (fun hne => hne h2)] at hv
          by_cases h3 : doc.expiresAt ≤ now
          · rw [if_pos h3] at hv
            simp at hv
          · exact ⟨doc, hm, hu, hj, h1, Nat.lt_of_not_le h3, h2⟩
        · rw [if_pos h2] at hv
          simp at hv
      · rw [if_pos h1] at hv
        simp at hv
  · rintro ⟨r, hm, hu, hj, hrev, hexp, hhash⟩
    obtain ⟨r', hf⟩ := findRecord_isSome hm hu hj
    obtain ⟨hu', hj', hm'⟩ := findRecord_some hf
    have hrr : r' = r := huniq r' hm' r hm (hu'.trans hu.symm) (hj'.trans hj.symm)
    subst hrr
    simp only [isRefreshTokenValid, hf]
    rw [if_neg (fun hne => hne hrev), if_neg (fun hne => hne hhash),
       if_neg (by omega)]

/-- Witness for C5 on the concrete one-row ledger. -/
theorem claim_C5_validity_iff_witness :
    isRefreshTokenValid [wRec] "u1" "j1" wRefreshTok 5 = .valid ↔
      ∃ r ∈ [wRec], r.userId = "u1" ∧ r.jti = "j1" ∧ r.revokedAt = none ∧
        5 < r.expiresAt ∧ r.hashedToken = hashToken wRefreshTok :=
  claim_C5_validity_iff [wRec] "u1" "j1" wRefreshTok 5
    (by
      intro r1 hr1 r2 hr2 _ _
      rw [List.mem_singleton] at hr1 hr2
      rw [hr1, hr2])

/-- C10: a correctly signed, unexpired access token whose payload has no
numeric `tokenVersion` passes both the request authenticator and the
socket handshake for any live `tokenVersion` of the (active) user — the
live version comparison only runs when the payload field is a number, so
such tokens bypass global invalidation. -/
theorem claim_C10_missing_version_bypass (users : List User)
    (tok : SignedToken) (now : Nat) (user : User)
    (hver : jwtVerify tok jwtSecret tokenIssuer tokenAudience now
              = .ok tok.payload)
    (hnone : tok.payload.tokenVersion = none)
    (hfind : findById users tok.payload.id = some user)
    (hactive : user.isActive = true) :
    authenticate users (some tok) now = .ok user.id user.role user.tokenVersion
      ∧ socketAuth users (some tok) now
          = some (user.id, user.role, user.tokenVersion) := by
  constructor
  · simp [authenticate, hver, hfind, hactive, hnone]
  · simp [socketAuth, hver, hfind, hactive, hnone]

/-- A user whose stored `tokenVersion` has been bumped to 5. -/
def wUserBumped : User := { wUser with tokenVersion := 5 }

/-- An access token for `wUserBumped` that carries no numeric
`tokenVersion` claim. -/
def wTokNoVer : SignedToken :=
  signAccessToken { id := "u1", role := .driver, tokenVersion := none
                    jti := "j9" } 0

/-- Witness for C10: the version-less token is accepted although the
stored version is 5. -/
theorem claim_C10_missing_version_bypass_witness :
    authenticate [wUserBumped] (some wTokNoVer) 3 = .ok "u1" .driver 5
      ∧ socketAuth [wUserBumped] (some wTokNoVer) 3
          = some ("u1", .driver, 5) :=
  claim_C10_missing_version_bypass [wUserBumped] wTokNoVer 3 wUserBumped
    rfl rfl rfl rfl

/-- C2: for every protected request carrying a correctly signed,
unexpired access token, the request authenticator fails with 401
whenever the user is missing, inactive, or the token's embedded numeric
`tokenVersion` differs from the live one; consequently after a
successful `changePassword` every previously issued access token for
that user (which embeds the pre-change version) fails authentication
even while still unexpired. -/
theorem claim_C2_stale_session_rejection :
    (∀ (users : List User) (tok : SignedToken) (now : Nat),
      jwtVerify tok jwtSecret tokenIssuer tokenAudience now = .ok tok.payload →
      findById users tok.payload.id = none →
      authenticate users (some tok) now = .failure ⟨"Invalid token", 401⟩) ∧
    (∀ (users : List User) (tok : SignedToken) (now : Nat) (user : User),
      jwtVerify tok jwtSecret tokenIssuer tokenAudience now = .ok tok.payload →
      findById users tok.payload.id = some user → user.isActive = false →
      authenticate users (some tok) now = .failure ⟨"Invalid token", 401⟩) ∧
    (∀ (users : List User) (tok : SignedToken) (now : Nat) (user : User)
        (v : Nat),
      jwtVerify tok jwtSecret tokenIssuer tokenAudience now = .ok tok.payload →
      findById users tok.payload.id = some user → user.isActive = true →
      tok.payload.tokenVersion = some v → v ≠ user.tokenVersion →
      authenticate users (some tok) now = .failure ⟨"Token expired", 401⟩) ∧
    (∀ (db : Db) (uid cur newPw : String) (now : Nat) (user : User)
        (tok : SignedToken) (now' : Nat),
      findById db.users uid = some user →
      (changePassword db uid cur newPw now).1.ok = true →
      tok.payload.id = uid →
      tok.payload.tokenVersion = some user.tokenVersion →
      jwtVerify tok jwtSecret tokenIssuer tokenAudience now' = .ok tok.payload →
      ∃ e, authenticate (changePassword db uid cur newPw now).2.users
              (some tok) now' = .failure e ∧ e.status = 401) := by
  refine ⟨?_, ?_, ?_, ?_⟩
  · intro users tok now hver hfind
    simp [authenticate, hver, hfind]
  · intro users tok now user hver hfind hact
    simp [authenticate, hver, hfind, hact]
  · intro users tok now user v hver hfind hact hv hne
    simp [authenticate, hver, hfind, hact, hv, hne]
  · intro db uid cur newPw now user tok now' hfind hok hid hv hver
    by_cases hg1 : cur = "" ∨ newPw = ""
    · exfalso
      simp [changePassword, hg1] at hok
    by_cases hg2 : newPw.length < 6
    · exfalso
      simp [changePassword, hg1, hg2] at hok
    cases hvp : verifyPassword user cur with
    | false =>
      exfalso
      simp [changePassword, hg1, hg2, hfind, hvp] at hok
    | true =>
      have husers : (changePassword db uid cur newPw now).2.users
          = saveUser db.users
              { user with passwordHash := preSaveHash newPw
                          tokenVersion := user.tokenVersion + 1 } := by
        simp [changePassword, hg1, hg2, hfind, hvp]
      have hufind : findById (changePassword db uid cur newPw now).2.users
          tok.payload.id
          = some { user with passwordHash := preSaveHash newPw
                             tokenVersion := user.tokenVersion + 1 } := by
        rw [husers, findById_saveUser, hid, hfind]
        simp
      cases hact : user.isActive with
      | false =>
        refine ⟨⟨"Invalid token", 401⟩, ?_, rfl⟩
        simp [authenticate, hver, hufind, hact]
      | true =>
        refine ⟨⟨"Token expired", 401⟩, ?_, rfl⟩
        have hne : user.tokenVersion ≠ user.tokenVersion + 1 := by omega
        simp [authenticate, hver, hufind, hact, hv, hne]

/-- Witness for C2: in the concrete post-login state, change the
password; the pre-change access token is then rejected. -/
theorem claim_C2_stale_session_rejection_witness :
    ∃ e, authenticate
        (changePassword wDb "u1" "password123" "newpass99" 50).2.users
        (some wAccessTok) 60 = .failure e ∧ e.status = 401 :=
  claim_C2_stale_session_rejection.2.2.2 wDb "u1" "password123" "newpass99"
    50 wUser wAccessTok 60 rfl rfl rfl rfl rfl

/-- A ledger-valid check implies a found, unrevoked, hash-matching,
unexpired row. -/
theorem valid_findRecord {tokens : List RefreshTokenRecord}
    {uid jti : String} {tok : SignedToken} {now : Nat}
    (h : isRefreshTokenValid tokens uid jti tok now = .valid) :
    ∃ doc, findRecord tokens uid jti = some doc ∧ doc.revokedAt = none ∧
      doc.hashedToken = hashToken tok ∧ now < doc.expiresAt := by
  cases hf : findRecord tokens uid jti with
  | none => simp [isRefreshTokenValid, hf] at h
  | some doc =>
    simp only [isRefreshTokenValid, hf] at h
    by_cases h1 : doc.revokedAt = none
    · by_cases h2 : doc.hashedToken = hashToken tok
      · by_cases h3 : doc.expiresAt ≤ now
        · rw [if_neg (fun hne => hne h1), if_neg (fun hne => hne h2),
             if_pos h3] at h
          simp at h
        · exact ⟨doc, rfl, h1, h2, Nat.lt_of_not_le h3⟩
      · rw [if_neg (fun hne => hne h1), if_pos h2] at h
        simp at h
    · rw [if_pos h1] at h
      simp at h

/-- C8: a login with an unknown email and a login with a known active
user but wrong password produce the identical `Invalid credentials` 401
response (and neither changes state), so the two failures cannot be
distinguished; a deactivated account instead fails with
`Account is deactivated`. -/
theorem claim_C8_login_indistinguishable :
    (∀ (db : Db) (email1 pw1 email2 pw2 jti : String) (now : Nat)
        (ip ua : Option String) (user : User),
      email1 ≠ "" → pw1 ≠ "" → findByEmail db.users email1 = none →
      email2 ≠ "" → pw2 ≠ "" → findByEmail db.users email2 = some user →
      user.isActive = true → verifyPassword user pw2 = false →
      (login db email1 pw1 jti now ip ua).1
          = .failure ⟨"Invalid credentials", 401⟩ ∧
        (login db email2 pw2 jti now ip ua).1
          = .failure ⟨"Invalid credentials", 401⟩ ∧
        (login db email1 pw1 jti now ip ua).1
          = (login db email2 pw2 jti now ip ua).1 ∧
        (login db email1 pw1 jti now ip ua).2 = db ∧
        (login db email2 pw2 jti now ip ua).2 = db) ∧
    (∀ (db : Db) (email pw jti : String) (now : Nat) (ip ua : Option String)
        (user : User),
      email ≠ "" → pw ≠ "" → findByEmail db.users email = some user →
      user.isActive = false →
      (login db email pw jti now ip ua).1
        = .failure ⟨"Account is deactivated", 401⟩) := by
  constructor
  · intro db email1 pw1 email2 pw2 jti now ip ua user
      h1 h2 hf1 h3 h4 hf2 hact hbad
    have r1 : (login db email1 pw1 jti now ip ua).1
        = .failure ⟨"Invalid credentials", 401⟩ := by
      simp [login, h1, h2, hf1]
    have r2 : (login db email2 pw2 jti now ip ua).1
        = .failure ⟨"Invalid credentials", 401⟩ := by
      simp [login, h3, h4, hf2, hact, hbad]
    refine ⟨r1, r2, r1.trans r2.symm, ?_, ?_⟩
    · simp [login, h1, h2, hf1]
    · simp [login, h3, h4, hf2, hact, hbad]
  · intro db email pw jti now ip ua user h1 h2 hf hact
    simp [login, h1, h2, hf, hact]

/-- An inactive copy of the concrete user, under a different email. -/
def wUserInactive : User :=
  { wUser with id := "u2", email := "off@b.c", isActive := false }

/-- Witness for C8: unknown email vs wrong password against the
concrete store return the same response; the deactivated user gets the
deactivation error. -/
theorem claim_C8_login_indistinguishable_witness :
    ((login ⟨[wUser, wUserInactive], []⟩ "ghost@b.c" "pw1234" "j5" 9
        none none).1 = .failure ⟨"Invalid credentials", 401⟩ ∧
      (login ⟨[wUser, wUserInactive], []⟩ "a@b.c" "wrongpass" "j5" 9
        none none).1 = .failure ⟨"Invalid credentials", 401⟩ ∧
      (login ⟨[wUser, wUserInactive], []⟩ "ghost@b.c" "pw1234" "j5" 9
        none none).1
        = (login ⟨[wUser, wUserInactive], []⟩ "a@b.c" "wrongpass" "j5" 9
            none none).1 ∧
      (login ⟨[wUser, wUserInactive], []⟩ "ghost@b.c" "pw1234" "j5" 9
        none none).2 = ⟨[wUser, wUserInactive], []⟩ ∧
      (login ⟨[wUser, wUserInactive], []⟩ "a@b.c" "wrongpass" "j5" 9
        none none).2 = ⟨[wUser, wUserInactive], []⟩) ∧
    (login ⟨[wUser, wUserInactive], []⟩ "off@b.c" "pw1234" "j5" 9
        none none).1 = .failure ⟨"Account is deactivated", 401⟩ :=
  ⟨claim_C8_login_indistinguishable.1 ⟨[wUser, wUserInactive], []⟩
      "ghost@b.c" "pw1234" "a@b.c" "wrongpass" "j5" 9 none none wUser
      (by decide) (by decide) (by decide) (by decide) (by decide)
      (by decide) rfl rfl,
    claim_C8_login_indistinguishable.2 ⟨[wUser, wUserInactive], []⟩
      "off@b.c" "pw1234" "j5" 9 none none wUserInactive
      (by decide) (by decide) (by decide) rfl⟩

/-- C6: logout always answers 200 regardless of the presented token
(absent, malformed, expired, unknown, already revoked, or valid); a
decodable token naming a ledger-valid row revokes exactly that one row,
and in each of the other enumerated cases the state is unchanged. -/
theorem claim_C6_logout_idempotent :
    (∀ (db : Db) (presented : Option SignedToken) (now : Nat),
      (logout db presented now).1 = ⟨true, "Logout successful", 200⟩) ∧
    (∀ (db : Db) (now : Nat), (logout db none now).2 = db) ∧
    (∀ (db : Db) (tok : SignedToken) (now : Nat) (e : VerifyError),
      jwtVerify tok jwtRefreshSecret tokenIssuer tokenAudience now = .error e →
      (logout db (some tok) now).2 = db) ∧
    (∀ (db : Db) (tok : SignedToken) (now : Nat),
      jwtVerify tok jwtRefreshSecret tokenIssuer tokenAudience now
        = .ok tok.payload →
      findRecord db.tokens tok.payload.id tok.payload.jti = none →
      (logout db (some tok) now).2 = db) ∧
    (∀ (db : Db) (tok : SignedToken) (now : Nat) (r : RefreshTokenRecord),
      LedgerUniq db.tokens →
      jwtVerify tok jwtRefreshSecret tokenIssuer tokenAudience now
        = .ok tok.payload →
      findRecord db.tokens tok.payload.id tok.payload.jti = some r →
      r.revokedAt ≠ none →
      (logout db (some tok) now).2 = db) ∧
    (∀ (db : Db) (tok : SignedToken) (now : Nat),
      jwtVerify tok jwtRefreshSecret tokenIssuer tokenAudience now
        = .ok tok.payload →
      tok.payload.id ≠ "" → tok.payload.jti ≠ "" →
      isRefreshTokenValid db.tokens tok.payload.id tok.payload.jti tok now
        = .valid →
      ∃ r l1 l2, db.tokens = l1 ++ r :: l2 ∧ r.userId = tok.payload.id ∧
        r.jti = tok.payload.jti ∧ r.revokedAt = none ∧
        (logout db (some tok) now).2
          = { db with tokens := l1 ++ { r with revokedAt := some now } :: l2 }) := by
  refine ⟨?_, ?_, ?_, ?_, ?_, ?_⟩
  · intro db presented now
    rfl
  · intro db now
    rfl
  · intro db tok now e hver
    simp [logout, hver]
  · intro db tok now hver hf
    by_cases hc : tok.payload.id ≠ "" ∧ tok.payload.jti ≠ ""
    · have hid : revokeRefreshTokenByJti db.tokens tok.payload.id
          tok.payload.jti now = db.tokens := by
        apply revokeOne_id
        intro x hx hmx
        have := List.find?_eq_none.mp hf x hx
        simp [hmx.1, hmx.2.1] at this
      simp [logout, hver, hc, hid]
    · simp [logout, hver, hc]
  · intro db tok now r huniq hver hf hrev
    by_cases hc : tok.payload.id ≠ "" ∧ tok.payload.jti ≠ ""
    · obtain ⟨hru, hrj, hrm⟩ := findRecord_some hf
      have hid : revokeRefreshTokenByJti db.tokens tok.payload.id
          tok.payload.jti now = db.tokens := by
        apply revokeOne_id
        intro x hx hmx
        have hxr : x = r :=
          huniq x hx r hrm (hmx.1.trans hru.symm) (hmx.2.1.trans hrj.symm)
        rw [hxr] at hmx
        exact hrev hmx.2.2
      simp [logout, hver, hc, hid]
    · simp [logout, hver, hc]
  · intro db tok now hver hid hjti hvalid
    obtain ⟨doc, hf, hrev, _, _⟩ := valid_findRecord hvalid
    obtain ⟨hru, hrj, _⟩ := findRecord_some hf
    obtain ⟨l1, l2, hl, _, hrw⟩ :=
      revokeOne_decomp db.tokens tok.payload.id tok.payload.jti now doc hf hrev
    refine ⟨doc, l1, l2, hl, hru, hrj, hrev, ?_⟩
    simp [logout, hver, hid, hjti, hrw]

/-- Witness for C6: concrete valid logout revokes the single row;
conjunction also checks the always-200 response. -/
theorem claim_C6_logout_idempotent_witness :
    (logout wDb (some wRefreshTok) 5).1 = ⟨true, "Logout successful", 200⟩ ∧
      ∃ r l1 l2, wDb.tokens = l1 ++ r :: l2 ∧ r.userId = wRefreshTok.payload.id ∧
        r.jti = wRefreshTok.payload.jti ∧ r.revokedAt = none ∧
        (logout wDb (some wRefreshTok) 5).2
          = { wDb with tokens := l1 ++ { r with revokedAt := some 5 } :: l2 } :=
  ⟨claim_C6_logout_idempotent.1 wDb (some wRefreshTok) 5,
    claim_C6_logout_idempotent.2.2.2.2.2 wDb wRefreshTok 5 rfl
      (by decide) (by decide) rfl⟩

/-- The `rider:location` handler preserves the numeric-coordinates
invariant of the in-memory map. -/
theorem gatewayInv_riderLocation (gw : Gateway) (h : GatewayInv gw)
    (rid : String) (p : LocPayload) (now : Nat) :
    GatewayInv (riderLocation gw rid p now) := by
  cases hc : p.coords with
  | none => simpa only [riderLocation, hc] using h
  | some c =>
    simp only [riderLocation, hc]
    by_cases hl : (c.lat.isSome && c.lng.isSome) = true
    · rw [if_pos hl]
      rw [Bool.and_eq_true] at hl
      intro pr hpr
      simp only [mapSet] at hpr
      by_cases hex : gw.latestByRider.any (fun q => q.1 == rid) = true
      · rw [if_pos hex] at hpr
        rw [List.mem_map] at hpr
        obtain ⟨pr0, hpr0, heq⟩ := hpr
        by_cases hk : (pr0.1 == rid) = true
        · rw [if_pos hk] at heq
          rw [← heq]
          exact ⟨hl.1, hl.2⟩
        · rw [if_neg hk] at heq
          rw [← heq]
          exact h pr0 hpr0
      · rw [if_neg hex] at hpr
        rcases List.mem_append.mp hpr with h1 | h2
        · exact h pr h1
        · rw [List.mem_singleton] at h2
          rw [h2]
          exact ⟨hl.1, hl.2⟩
    · rw [if_neg hl]
      exact h

/-- Every gateway state reachable from process start by a sequence of
`rider:location` events satisfies the numeric-coordinates invariant. -/
theorem gatewayInv_runEvents (evs : List (String × LocPayload × Nat)) :
    GatewayInv (runEvents evs) := by
  suffices h : ∀ gw, GatewayInv gw →
      GatewayInv (evs.foldl (fun gw e => riderLocation gw e.1 e.2.1 e.2.2) gw) by
    apply h
    intro pr hpr
    simp [initialGateway] at hpr
  induction evs with
  | nil => intro gw h; exact h
  | cons e es ih =>
    intro gw h
    exact ih _ (gatewayInv_riderLocation gw h e.1 e.2.1 e.2.2)

/-- C9: an incoming `rider:location` event without a coords object
carrying numeric `lat` and `lng` leaves the gateway state (map,
persisted samples, timer) completely unchanged — in any state reachable
from process start — and every entry of any subsequent `fleet:update`
broadcast has numeric `lat` and `lng`, so the invalid sample never
appears in one. -/
theorem claim_C9_invalid_telemetry_dropped
    (evs : List (String × LocPayload × Nat)) (rid : String)
    (p : LocPayload) (now : Nat) (hbad : validSample p = false) :
    riderLocation (runEvents evs) rid p now = runEvents evs ∧
    ∀ ds, fleetUpdate (riderLocation (runEvents evs) rid p now) = some ds →
      ∀ d ∈ ds, d.coords.lat.isSome ∧ d.coords.lng.isSome := by
  have hdrop : riderLocation (runEvents evs) rid p now = runEvents evs := by
    cases hc : p.coords with
    | none => simp only [riderLocation, hc]
    | some c =>
      simp only [validSample, hc] at hbad
      simp only [riderLocation, hc]
      rw [if_neg (by simp [hbad])]
  refine ⟨hdrop, ?_⟩
  intro ds hds d hd
  rw [hdrop] at hds
  have hinv := gatewayInv_runEvents evs
  unfold fleetUpdate at hds
  by_cases he : (runEvents evs).latestByRider.isEmpty = true
  · rw [if_pos he] at hds
    cases hds
  · rw [if_neg he] at hds
    have hds' := Option.some.inj hds
    rw [← hds'] at hd
    rw [List.mem_map] at hd
    obtain ⟨pr, hpr, heq⟩ := hd
    rw [← heq]
    exact hinv pr hpr

/-- A well-formed sample event used by the C9 witness. -/
def wGoodSample : LocPayload :=
  { coords := some { lat := some 12, lng := some 77 }, speed := some 30
    heading := none }

/-- A malformed sample whose `lat` is not a number. -/
def wBadSample : LocPayload :=
  { coords := some { lat := none, lng := some 77 }, speed := none
    heading := none }

/-- Witness for C9: after one valid sample, a malformed one is dropped
and the broadcast still contains only numeric coordinates. -/
theorem claim_C9_invalid_telemetry_dropped_witness :
    riderLocation (runEvents [("r1", wGoodSample, 1)]) "r2" wBadSample 2
        = runEvents [("r1", wGoodSample, 1)] ∧
      ∀ ds, fleetUpdate (riderLocation (runEvents [("r1", wGoodSample, 1)])
          "r2" wBadSample 2) = some ds →
        ∀ d ∈ ds, d.coords.lat.isSome ∧ d.coords.lng.isSome :=
  claim_C9_invalid_telemetry_dropped [("r1", wGoodSample, 1)] "r2"
    wBadSample 2 (by decide)

/-- A successful `jwtVerify` always returns the token's own payload. -/
theorem jwtVerify_ok {tok : SignedToken} {secret iss aud : String}
    {now : Nat} {c : Claims}
    (h : jwtVerify tok secret iss aud now = .ok c) : c = tok.payload := by
  unfold jwtVerify at h
  split_ifs at h with h1 h2 h3
  cases h
  rfl

/-- `findRecord` on a decomposed list whose prefix has no match returns
the head of the suffix when it matches. -/
theorem findRecord_concat_first (l1 : List RefreshTokenRecord)
    (x : RefreshTokenRecord) (l2 : List RefreshTokenRecord)
    (uid jti : String)
    (hno : ∀ y ∈ l1, ¬(y.userId = uid ∧ y.jti = jti))
    (hxu : x.userId = uid) (hxj : x.jti = jti) :
    findRecord (l1 ++ x :: l2) uid jti = some x := by
  induction l1 with
  | nil =>
    simp [findRecord, List.find?_cons, hxu, hxj]
  | cons y ys ih =>
    have hy := hno y (List.mem_cons_self y ys)
    have hyb : (y.userId == uid && y.jti == jti) = false := by
      cases hb : (y.userId == uid && y.jti == jti) with
      | false => rfl
      | true => exact absurd (by simpa using hb) hy
    rw [List.cons_append, findRecord, List.find?_cons, hyb]
    exact ih (fun z hz => hno z (List.mem_cons_of_mem y hz))

/-- C1: refresh with a decodable token for an existing active user
either detects a stale version or invalid ledger row and then revokes
every unrevoked row of that user while failing 401, or — when the
version matches and the ledger row is valid — revokes exactly the
consumed row, signs a fresh pair embedding the newly minted `jti` and
the live `tokenVersion`, appends the new ledger row, and returns the
pair. -/
theorem claim_C1_refresh_rotation (db : Db) (tok : SignedToken)
    (jti : String) (now : Nat) (ip ua : Option String) (user : User)
    (hver : jwtVerify tok jwtRefreshSecret tokenIssuer tokenAudience now
              = .ok tok.payload)
    (hfind : findById db.users tok.payload.id = some user)
    (hactive : user.isActive = true) :
    ((tok.payload.tokenVersion ≠ some user.tokenVersion ∨
        isRefreshTokenValid db.tokens user.id tok.payload.jti tok now
          ≠ .valid) →
      (refreshToken db (some tok) jti now ip ua).1
          = .failure ⟨"Invalid refresh token", 401⟩ ∧
        (refreshToken db (some tok) jti now ip ua).2.users = db.users ∧
        (refreshToken db (some tok) jti now ip ua).2.tokens
          = revokeAllUserRefreshTokens db.tokens user.id now ∧
        ∀ r ∈ (refreshToken db (some tok) jti now ip ua).2.tokens,
          r.userId = user.id → r.revokedAt.isSome) ∧
    (tok.payload.tokenVersion = some user.tokenVersion →
      isRefreshTokenValid db.tokens user.id tok.payload.jti tok now
        = .valid →
      ∃ consumed l1 l2,
        db.tokens = l1 ++ consumed :: l2 ∧
        consumed.userId = user.id ∧ consumed.jti = tok.payload.jti ∧
        consumed.revokedAt = none ∧
        consumed.hashedToken = hashToken tok ∧
        refreshToken db (some tok) jti now ip ua
          = (RefreshResult.success
              (signAccessToken
                { id := user.id, role := user.role
                  tokenVersion := some user.tokenVersion, jti := jti } now)
              (signRefreshToken
                { id := user.id, role := user.role
                  tokenVersion := some user.tokenVersion, jti := jti } now),
            { users := db.users
              tokens :=
                (l1 ++ { consumed with revokedAt := some now } :: l2) ++
                  [{ userId := user.id, jti := jti
                     hashedToken := hashToken (signRefreshToken
                       { id := user.id, role := user.role
                         tokenVersion := some user.tokenVersion
                         jti := jti } now)
                     expiresAt := now + refreshTtlMs, revokedAt := none
                     ip := ip, userAgent := ua, createdAt := now }] })) := by
  constructor
  · intro hd
    by_cases hv : tok.payload.tokenVersion = some user.tokenVersion
    · have hval : isRefreshTokenValid db.tokens user.id tok.payload.jti tok
          now ≠ .valid := by
        rcases hd with h | h
        · exact absurd hv h
        · exact h
      cases hvv : isRefreshTokenValid db.tokens user.id tok.payload.jti tok
          now with
      | valid => exact absurd hvv hval
      | invalid reason =>
        have hres : refreshToken db (some tok) jti now ip ua
            = (.failure ⟨"Invalid refresh token", 401⟩,
               { db with tokens :=
                   revokeAllUserRefreshTokens db.tokens user.id now }) := by
          simp [refreshToken, hver, hfind, hactive, hv, hvv]
        refine ⟨by rw [hres], by rw [hres], by rw [hres], ?_⟩
        rw [hres]
        exact revokeAll_userRevoked db.tokens user.id now
    · have hres : refreshToken db (some tok) jti now ip ua
          = (.failure ⟨"Invalid refresh token", 401⟩,
             { db with tokens :=
                 revokeAllUserRefreshTokens db.tokens user.id now }) := by
        simp [refreshToken, hver, hfind, hactive, hv]
      refine ⟨by rw [hres], by rw [hres], by rw [hres], ?_⟩
      rw [hres]
      exact revokeAll_userRevoked db.tokens user.id now
  · intro hv hvalid
    obtain ⟨doc, hf, hrev, hhash, hexp⟩ := valid_findRecord hvalid
    obtain ⟨hdu, hdj, _⟩ := findRecord_some hf
    obtain ⟨l1, l2, hl, hnotin, hrw⟩ :=
      revokeOne_decomp db.tokens user.id tok.payload.jti now doc hf hrev
    refine ⟨doc, l1, l2, hl, hdu, hdj, hrev, hhash, ?_⟩
    have hres : refreshToken db (some tok) jti now ip ua
        = (RefreshResult.success
            (signAccessToken
              { id := user.id, role := user.role
                tokenVersion := some user.tokenVersion, jti := jti } now)
            (signRefreshToken
              { id := user.id, role := user.role
                tokenVersion := some user.tokenVersion, jti := jti } now),
          { users := db.users
            tokens :=
              revokeRefreshTokenByJti db.tokens user.id tok.payload.jti now
                ++ [{ userId := user.id, jti := jti
                      hashedToken := hashToken (signRefreshToken
                        { id := user.id, role := user.role
                          tokenVersion := some user.tokenVersion
                          jti := jti } now)
                      expiresAt := now + refreshTtlMs, revokedAt := none
                      ip := ip, userAgent := ua, createdAt := now }] }) := by
      simp [refreshToken, hver, hfind, hactive, hv, hvalid, issueTokens]
    rw [hres, hrw]

/-- Witness for C1: a concrete valid rotation in the post-login state. -/
theorem claim_C1_refresh_rotation_witness :
    ∃ consumed l1 l2,
      wDb.tokens = l1 ++ consumed :: l2 ∧
      consumed.userId = wUser.id ∧ consumed.jti = wRefreshTok.payload.jti ∧
      consumed.revokedAt = none ∧
      consumed.hashedToken = hashToken wRefreshTok ∧
      refreshToken wDb (some wRefreshTok) "j2" 10 none none
        = (RefreshResult.success
            (signAccessToken
              { id := wUser.id, role := wUser.role
                tokenVersion := some wUser.tokenVersion, jti := "j2" } 10)
            (signRefreshToken
              { id := wUser.id, role := wUser.role
                tokenVersion := some wUser.tokenVersion, jti := "j2" } 10),
          { users := wDb.users
            tokens :=
              (l1 ++ { consumed with revokedAt := some 10 } :: l2) ++
                [{ userId := wUser.id, jti := "j2"
                   hashedToken := hashToken (signRefreshToken
                     { id := wUser.id, role := wUser.role
                       tokenVersion := some wUser.tokenVersion
                       jti := "j2" } 10)
                   expiresAt := 10 + refreshTtlMs, revokedAt := none
                   ip := none, userAgent := none, createdAt := 10 }] }) :=
  (claim_C1_refresh_rotation wDb wRefreshTok "j2" 10 none none wUser
    rfl rfl rfl).2 rfl rfl

/-- `refreshToken` never modifies the user collection. -/
theorem refresh_users_eq (db : Db) (presented : Option SignedToken)
    (jti : String) (now : Nat) (ip ua : Option String) :
    (refreshToken db presented jti now ip ua).2.users = db.users := by
  unfold refreshToken
  repeat' (first | rfl | split)

/-- `logout` never modifies the user collection. -/
theorem logout_users_eq (db : Db) (presented : Option SignedToken)
    (now : Nat) : (logout db presented now).2.users = db.users := by
  unfold logout
  repeat' (first | rfl | split)

/-- Writing back a same-id user whose `tokenVersion` did not decrease
preserves id-uniqueness and version monotonicity for every user. -/
theorem saveUser_mono (users : List User) (huniq : UsersUniq users)
    (u0 u1 : User) (hmem : u0 ∈ users) (hid : u1.id = u0.id)
    (htv : u0.tokenVersion ≤ u1.tokenVersion)
    (hact : u1.isActive = u0.isActive) :
    UsersUniq (saveUser users u1) ∧
    ∀ id u, findById users id = some u →
      ∃ u', findById (saveUser users u1) id = some u' ∧ u'.id = u.id ∧
        u.tokenVersion ≤ u'.tokenVersion ∧ u'.isActive = u.isActive := by
  constructor
  · intro x1 hx1 x2 hx2 hxid
    simp only [saveUser, List.mem_map] at hx1 hx2
    obtain ⟨v1, hv1, he1⟩ := hx1
    obtain ⟨v2, hv2, he2⟩ := hx2
    have hidval : ∀ v : User, (if v.id == u1.id then u1 else v).id = v.id := by
      intro v
      by_cases h : (v.id == u1.id) = true
      · rw [if_pos h]
        have : v.id = u1.id := by simpa using h
        rw [this]
      · rw [if_neg h]
    have hv12 : v1 = v2 := by
      apply huniq v1 hv1 v2 hv2
      rw [← hidval v1, ← hidval v2, he1, he2, hxid]
    rw [← he1, ← he2, hv12]
  · intro id u hfu
    rw [findById_saveUser, hfu, Option.map_some']
    by_cases h : (u.id == u1.id) = true
    · rw [if_pos h]
      have huid : u.id = u1.id := by simpa using h
      have hu0 : u = u0 :=
        huniq u (findById_some hfu).2 u0 hmem (by rw [huid, hid])
      refine ⟨u1, rfl, by rw [hid, ← hu0], ?_, by rw [hact, ← hu0]⟩
      rw [hu0]
      exact htv
    · rw [if_neg h]
      exact ⟨u, rfl, rfl, le_refl _, rfl⟩

/-- One session-machine step preserves id-uniqueness and never lowers
any user's `tokenVersion`, never deletes a user, and never toggles
`isActive`. -/
theorem step_users_mono {db db' : Db} (h : Step db db')
    (huniq : UsersUniq db.users) :
    UsersUniq db'.users ∧
    ∀ id u, findById db.users id = some u →
      ∃ u', findById db'.users id = some u' ∧ u'.id = u.id ∧
        u.tokenVersion ≤ u'.tokenVersion ∧ u'.isActive = u.isActive := by
  have triv : UsersUniq db.users ∧
      ∀ id u, findById db.users id = some u →
        ∃ u', findById db.users id = some u' ∧ u'.id = u.id ∧
          u.tokenVersion ≤ u'.tokenVersion ∧ u'.isActive = u.isActive :=
    ⟨huniq, fun _ u hu => ⟨u, hu, rfl, le_refl _, rfl⟩⟩
  cases h with
  | login email password jti now ip ua =>
    by_cases hg : email = "" ∨ password = ""
    · simpa [login, hg] using triv
    · cases hfe : findByEmail db.users email with
      | none => simpa [login, hg, hfe] using triv
      | some user0 =>
        cases hact : user0.isActive with
        | false => simpa [login, hg, hfe, hact] using triv
        | true =>
          cases hvp : verifyPassword user0 password with
          | false => simpa [login, hg, hfe, hact, hvp] using triv
          | true =>
            have husers : (login db email password jti now ip ua).2.users
                = saveUser db.users { user0 with lastSeen := some now } := by
              simp [login, hg, hfe, hact, hvp]
            rw [husers]
            exact saveUser_mono db.users huniq user0 _
              (List.mem_of_find?_eq_some hfe) rfl (le_refl _) rfl
  | refresh presented jti now ip ua =>
    rw [refresh_users_eq]
    exact triv
  | logout presented now =>
    rw [logout_users_eq]
    exact triv
  | changePassword uid cur newPw now =>
    by_cases hg1 : cur = "" ∨ newPw = ""
    · simpa [changePassword, hg1] using triv
    · by_cases hg2 : newPw.length < 6
      · simpa [changePassword, hg1, hg2] using triv
      · cases hfu : findById db.users uid with
        | none => simpa [changePassword, hg1, hg2, hfu] using triv
        | some user =>
          cases hvp : verifyPassword user cur with
          | false => simpa [changePassword, hg1, hg2, hfu, hvp] using triv
          | true =>
            have husers : (changePassword db uid cur newPw now).2.users
                = saveUser db.users
                    { user with passwordHash := preSaveHash newPw
                                tokenVersion := user.tokenVersion + 1 } := by
              simp [changePassword, hg1, hg2, hfu, hvp]
            rw [husers]
            exact saveUser_mono db.users huniq user _
              (List.mem_of_find?_eq_some hfu) rfl (Nat.le_succ _) rfl

/-- Along any interleaving of session-machine steps, ids stay unique,
users are never deleted, `isActive` never changes, and `tokenVersion`
never decreases. -/
theorem reach_users_mono {db db' : Db} (h : Reach db db')
    (huniq : UsersUniq db.users) :
    UsersUniq db'.users ∧
    ∀ id u, findById db.users id = some u →
      ∃ u', findById db'.users id = some u' ∧ u'.id = u.id ∧
        u.tokenVersion ≤ u'.tokenVersion ∧ u'.isActive = u.isActive := by
  have h' : Relation.ReflTransGen Step db db' := h
  clear h
  induction h' with
  | refl => exact ⟨huniq, fun _ u hu => ⟨u, hu, rfl, le_refl _, rfl⟩⟩
  | tail hsteps hstep ih =>
    obtain ⟨huniq1, hmono1⟩ := ih
    obtain ⟨huniq2, hmono2⟩ := step_users_mono hstep huniq1
    refine ⟨huniq2, fun id u hu => ?_⟩
    obtain ⟨u1, hu1, hid1, htv1, hact1⟩ := hmono1 id u hu
    obtain ⟨u2, hu2, hid2, htv2, hact2⟩ := hmono2 id u1 hu1
    exact ⟨u2, hu2, hid2.trans hid1, htv1.trans htv2, hact2.trans hact1⟩

/-- C4 (amended): `tokenVersion` starts at 0 and never decreases along
any interleaving of session operations; a successful `changePassword`
increments it by exactly one, revokes every unrevoked refresh row of
the user, and stores the new password as the pre-save hook transforms
it — re-hashed unless the submitted value already starts with
`"$2b$"`, in which case it is stored verbatim; a `changePassword`
whose current password fails verification changes nothing and fails. -/
theorem claim_C4_tokenVersion_monotone :
    (∀ (id email : String) (role : Role) (pw : String) (now : Nat),
      (newUser id email role pw now).tokenVersion = 0) ∧
    (∀ (db db' : Db), Reach db db' → UsersUniq db.users →
      ∀ id u, findById db.users id = some u →
        ∃ u', findById db'.users id = some u' ∧
          u.tokenVersion ≤ u'.tokenVersion) ∧
    (∀ pw : String, startsWith2b pw = false → preSaveHash pw = bcryptHash pw) ∧
    (∀ pw : String, startsWith2b pw = true → preSaveHash pw = pw) ∧
    (∀ (db : Db) (uid cur newPw : String) (now : Nat) (user : User),
      findById db.users uid = some user →
      cur ≠ "" → newPw ≠ "" → ¬(newPw.length < 6) →
      verifyPassword user cur = true →
      (changePassword db uid cur newPw now).1
          = ⟨true, "Password changed successfully", 200⟩ ∧
        findById (changePassword db uid cur newPw now).2.users uid
          = some { user with passwordHash := preSaveHash newPw
                             tokenVersion := user.tokenVersion + 1 } ∧
        (changePassword db uid cur newPw now).2.tokens
          = revokeAllUserRefreshTokens db.tokens user.id now ∧
        ∀ r ∈ (changePassword db uid cur newPw now).2.tokens,
          r.userId = user.id → r.revokedAt.isSome) ∧
    (∀ (db : Db) (uid cur newPw : String) (now : Nat) (user : User),
      findById db.users uid = some user →
      cur ≠ "" → newPw ≠ "" → ¬(newPw.length < 6) →
      verifyPassword user cur = false →
      (changePassword db uid cur newPw now).1.ok = false ∧
        (changePassword db uid cur newPw now).2 = db) := by
  refine ⟨?_, ?_, ?_, ?_, ?_, ?_⟩
  · intro id email role pw now
    rfl
  · intro db db' hreach huniq id u hu
    obtain ⟨u', hu', _, htv, _⟩ := (reach_users_mono hreach huniq).2 id u hu
    exact ⟨u', hu', htv⟩
  · intro pw h
    simp [preSaveHash, h]
  · intro pw h
    simp [preSaveHash, h]
  · intro db uid cur newPw now user hfu h1 h2 h3 hvp
    have hg1 : ¬(cur = "" ∨ newPw = "") := by
      intro h
      rcases h with h | h
      · exact h1 h
      · exact h2 h
    have hres : changePassword db uid cur newPw now
        = (⟨true, "Password changed successfully", 200⟩,
           { users := saveUser db.users
               { user with passwordHash := preSaveHash newPw
                           tokenVersion := user.tokenVersion + 1 }
             tokens := revokeAllUserRefreshTokens db.tokens user.id now }) := by
      simp [changePassword, hg1, h3, hfu, hvp]
    refine ⟨by rw [hres], ?_, by rw [hres], ?_⟩
    · rw [hres]
      show findById (saveUser db.users _) uid = _
      rw [findById_saveUser, hfu, Option.map_some']
      rw [if_pos (by simp)]
    · rw [hres]
      exact revokeAll_userRevoked db.tokens user.id now
  · intro db uid cur newPw now user hfu h1 h2 h3 hvp
    have hg1 : ¬(cur = "" ∨ newPw = "") := by
      intro h
      rcases h with h | h
      · exact h1 h
      · exact h2 h
    constructor
    · simp [changePassword, hg1, h3, hfu, hvp]
    · simp [changePassword, hg1, h3, hfu, hvp]

/-- Witness for C4: concrete successful and failing password changes
plus the hook characterization on an ordinary password. -/
theorem claim_C4_tokenVersion_monotone_witness :
    preSaveHash "newpass99" = bcryptHash "newpass99" ∧
    ((changePassword wDb "u1" "password123" "newpass99" 7).1
        = ⟨true, "Password changed successfully", 200⟩ ∧
      findById (changePassword wDb "u1" "password123" "newpass99" 7).2.users
          "u1"
        = some { wUser with passwordHash := preSaveHash "newpass99"
                            tokenVersion := wUser.tokenVersion + 1 } ∧
      (changePassword wDb "u1" "password123" "newpass99" 7).2.tokens
        = revokeAllUserRefreshTokens wDb.tokens wUser.id 7 ∧
      ∀ r ∈ (changePassword wDb "u1" "password123" "newpass99" 7).2.tokens,
        r.userId = wUser.id → r.revokedAt.isSome) ∧
    ((changePassword wDb "u1" "wrongpass" "newpass99" 7).1.ok = false ∧
      (changePassword wDb "u1" "wrongpass" "newpass99" 7).2 = wDb) :=
  ⟨claim_C4_tokenVersion_monotone.2.2.1 "newpass99" (by decide),
    claim_C4_tokenVersion_monotone.2.2.2.2.1 wDb "u1" "password123"
      "newpass99" 7 wUser rfl (by decide) (by decide) (by decide) rfl,
    claim_C4_tokenVersion_monotone.2.2.2.2.2 wDb "u1" "wrongpass"
      "newpass99" 7 wUser rfl (by decide) (by decide) (by decide) rfl⟩

/-- Counterexample for C4 as originally stated: a successful password
change to the six-character password `"$2b$ab"` stores it verbatim —
the pre-save hook treats any `"$2b$"`-prefixed value as already hashed
— so the stored `passwordHash` is not the bcrypt re-hash of the
submitted new password. -/
theorem claim_C4_counterexample_unhashed_store :
    (changePassword wDb "u1" "password123" "$2b$ab" 7).1
        = ⟨true, "Password changed successfully", 200⟩ ∧
      findById (changePassword wDb "u1" "password123" "$2b$ab" 7).2.users
          "u1"
        = some { wUser with passwordHash := "$2b$ab", tokenVersion := 1 } ∧
      ("$2b$ab" : String) ≠ bcryptHash "$2b$ab" :=
  ⟨rfl, by decide, by decide⟩

/-- The `(userId, jti)` row has been consumed: the ledger's first
matching row is revoked. -/
def ConsumedJti (db : Db) (uid jti : String) : Prop :=
  ∃ r, findRecord db.tokens uid jti = some r ∧ r.revokedAt ≠ none

theorem consumedList_append (l l2 : List RefreshTokenRecord)
    (uid jti : String)
    (h : ∃ r, findRecord l uid jti = some r ∧ r.revokedAt ≠ none) :
    ∃ r, findRecord (l ++ l2) uid jti = some r ∧ r.revokedAt ≠ none := by
  obtain ⟨r, hf, hrev⟩ := h
  exact ⟨r, findRecord_append_left l2 hf, hrev⟩

theorem consumedList_revokeAll (l : List RefreshTokenRecord)
    (uid' : String) (now : Nat) (uid jti : String)
    (h : ∃ r, findRecord l uid jti = some r ∧ r.revokedAt ≠ none) :
    ∃ r, findRecord (revokeAllUserRefreshTokens l uid' now) uid jti = some r
      ∧ r.revokedAt ≠ none := by
  obtain ⟨r, hf, hrev⟩ := h
  have hcond : (r.userId == uid' && r.revokedAt == none) = false := by
    cases hrv : r.revokedAt with
    | none => exact absurd hrv hrev
    | some t => simp [hrv]
  refine ⟨r, ?_, hrev⟩
  rw [findRecord_revokeAll, hf, Option.map_some', if_neg (by simp [hcond])]

theorem consumedList_revokeOne (l : List RefreshTokenRecord)
    (u' j' : String) (now : Nat) (uid jti : String)
    (h : ∃ r, findRecord l uid jti = some r ∧ r.revokedAt ≠ none) :
    ∃ r, findRecord (revokeRefreshTokenByJti l u' j' now) uid jti = some r
      ∧ r.revokedAt ≠ none := by
  obtain ⟨r, hf, hrev⟩ := h
  rcases findRecord_revokeOne l u' j' uid jti now r hf with h1 | h2
  · exact ⟨r, h1, hrev⟩
  · exact ⟨_, h2.1, by simp⟩

/-- Revocation of the first `(userId, jti)` match is absorbing: no
session-machine step un-revokes it. -/
theorem consumed_step {db db' : Db} (h : Step db db') (uid jti : String)
    (hc : ConsumedJti db uid jti) : ConsumedJti db' uid jti := by
  cases h with
  | login email password jti' now ip ua =>
    unfold ConsumedJti at hc ⊢
    by_cases hg : email = "" ∨ password = ""
    · simpa [login, hg] using hc
    · cases hfe : findByEmail db.users email with
      | none => simpa [login, hg, hfe] using hc
      | some user0 =>
        cases hact : user0.isActive with
        | false => simpa [login, hg, hfe, hact] using hc
        | true =>
          cases hvp : verifyPassword user0 password with
          | false => simpa [login, hg, hfe, hact, hvp] using hc
          | true =>
            have ht : (login db email password jti' now ip ua).2.tokens
                = db.tokens ++ [(issueTokens { user0 with lastSeen := some now }
                    jti' now ip ua).record] := by
              simp [login, hg, hfe, hact, hvp]
            rw [ht]
            exact consumedList_append _ _ _ _ hc
  | refresh presented jti' now ip ua =>
    unfold ConsumedJti at hc ⊢
    cases presented with
    | none => simpa [refreshToken] using hc
    | some tok =>
      cases hv : jwtVerify tok jwtRefreshSecret tokenIssuer tokenAudience now with
      | error e => simpa [refreshToken, hv] using hc
      | ok decoded =>
        have hdec := jwtVerify_ok hv
        subst hdec
        cases hfu : findById db.users tok.payload.id with
        | none => simpa [refreshToken, hv, hfu] using hc
        | some user =>
          cases hact : user.isActive with
          | false => simpa [refreshToken, hv, hfu, hact] using hc
          | true =>
            by_cases hveq : tok.payload.tokenVersion = some user.tokenVersion
            · cases hval : isRefreshTokenValid db.tokens user.id
                  tok.payload.jti tok now with
              | invalid reason =>
                have ht : (refreshToken db (some tok) jti' now ip ua).2.tokens
                    = revokeAllUserRefreshTokens db.tokens user.id now := by
                  simp [refreshToken, hv, hfu, hact, hveq, hval]
                rw [ht]
                exact consumedList_revokeAll _ _ _ _ _ hc
              | valid =>
                have ht : (refreshToken db (some tok) jti' now ip ua).2.tokens
                    = revokeRefreshTokenByJti db.tokens user.id
                        tok.payload.jti now
                      ++ [(issueTokens user jti' now ip ua).record] := by
                  simp [refreshToken, hv, hfu, hact, hveq, hval]
                rw [ht]
                exact consumedList_append _ _ _ _
                  (consumedList_revokeOne _ _ _ _ _ _ hc)
            · have ht : (refreshToken db (some tok) jti' now ip ua).2.tokens
                  = revokeAllUserRefreshTokens db.tokens user.id now := by
                simp [refreshToken, hv, hfu, hact, hveq]
              rw [ht]
              exact consumedList_revokeAll _ _ _ _ _ hc
  | logout presented now =>
    unfold ConsumedJti at hc ⊢
    cases presented with
    | none => simpa [logout] using hc
    | some tok =>
      cases hv : jwtVerify tok jwtRefreshSecret tokenIssuer tokenAudience now with
      | error e => simpa [logout, hv] using hc
      | ok decoded =>
        have hdec := jwtVerify_ok hv
        subst hdec
        by_cases hcid : tok.payload.id ≠ "" ∧ tok.payload.jti ≠ ""
        · have ht : (logout db (some tok) now).2.tokens
              = revokeRefreshTokenByJti db.tokens tok.payload.id
                  tok.payload.jti now := by
            simp [logout, hv, hcid]
          rw [ht]
          exact consumedList_revokeOne _ _ _ _ _ _ hc
        · simpa [logout, hv, hcid] using hc
  | changePassword uid' cur newPw now =>
    unfold ConsumedJti at hc ⊢
    by_cases hg1 : cur = "" ∨ newPw = ""
    · simpa [changePassword, hg1] using hc
    · by_cases hg2 : newPw.length < 6
      · simpa [changePassword, hg1, hg2] using hc
      · cases hfu : findById db.users uid' with
        | none => simpa [changePassword, hg1, hg2, hfu] using hc
        | some user =>
          cases hvp : verifyPassword user cur with
          | false => simpa [changePassword, hg1, hg2, hfu, hvp] using hc
          | true =>
            have ht : (changePassword db uid' cur newPw now).2.tokens
                = revokeAllUserRefreshTokens db.tokens user.id now := by
              simp [changePassword, hg1, hg2, hfu, hvp]
            rw [ht]
            exact consumedList_revokeAll _ _ _ _ _ hc

/-- A successful rotation leaves the consumed `(userId, jti)` row
revoked in the resulting state. -/
theorem refresh_success_consumed (db : Db) (tok : SignedToken)
    (jti : String) (now : Nat) (ip ua : Option String)
    (a r : SignedToken)
    (hs : (refreshToken db (some tok) jti now ip ua).1 = .success a r) :
    ConsumedJti (refreshToken db (some tok) jti now ip ua).2
      tok.payload.id tok.payload.jti := by
  cases hv : jwtVerify tok jwtRefreshSecret tokenIssuer tokenAudience now with
  | error e => simp [refreshToken, hv] at hs
  | ok decoded =>
    have hdec := jwtVerify_ok hv
    subst hdec
    cases hfu : findById db.users tok.payload.id with
    | none => simp [refreshToken, hv, hfu] at hs
    | some user =>
      obtain ⟨huid, _⟩ := findById_some hfu
      cases hact : user.isActive with
      | false => simp [refreshToken, hv, hfu, hact] at hs
      | true =>
        by_cases hveq : tok.payload.tokenVersion = some user.tokenVersion
        · cases hval : isRefreshTokenValid db.tokens user.id
              tok.payload.jti tok now with
          | invalid reason => simp [refreshToken, hv, hfu, hact, hveq, hval] at hs
          | valid =>
            obtain ⟨doc, hf, hrev, _, _⟩ := valid_findRecord hval
            obtain ⟨hdu, hdj, _⟩ := findRecord_some hf
            obtain ⟨l1, l2, hl, hnotin, hrw⟩ :=
              revokeOne_decomp db.tokens user.id tok.payload.jti now doc hf hrev
            have ht : (refreshToken db (some tok) jti now ip ua).2.tokens
                = revokeRefreshTokenByJti db.tokens user.id tok.payload.jti now
                  ++ [(issueTokens user jti now ip ua).record] := by
              simp [refreshToken, hv, hfu, hact, hveq, hval]
            unfold ConsumedJti
            rw [ht, hrw]
            refine ⟨{ doc with revokedAt := some now }, ?_, by simp⟩
            apply findRecord_append_left
            apply findRecord_concat_first
            · intro y hy
              rw [← huid]
              exact hnotin y hy
            · show doc.userId = tok.payload.id
              rw [hdu, huid]
            · exact hdj
        · simp [refreshToken, hv, hfu, hact, hveq] at hs

/-- C3: after a successful rotation consumes `(userId, jti)`, in every
state reachable by any interleaving of session-machine steps, any
refresh presenting a token for that consumed `jti` sees the ledger row
as revoked and fails — so at most one of two racing refresh calls for
the same `jti` succeeds. -/
theorem claim_C3_single_use_rotation (db : Db) (tok1 : SignedToken)
    (jti1 : String) (now1 : Nat) (ip1 ua1 : Option String)
    (a r : SignedToken)
    (hs : (refreshToken db (some tok1) jti1 now1 ip1 ua1).1 = .success a r)
    (db' : Db)
    (hreach : Reach (refreshToken db (some tok1) jti1 now1 ip1 ua1).2 db')
    (tok2 : SignedToken) (jti2 : String) (now2 : Nat)
    (ip2 ua2 : Option String)
    (hid : tok2.payload.id = tok1.payload.id)
    (hjti : tok2.payload.jti = tok1.payload.jti) :
    isRefreshTokenValid db'.tokens tok2.payload.id tok2.payload.jti tok2 now2
        = .invalid .revoked ∧
      (refreshToken db' (some tok2) jti2 now2 ip2 ua2).1
        = .failure ⟨"Invalid refresh token", 401⟩ := by
  have hcons0 :=
    refresh_success_consumed db tok1 jti1 now1 ip1 ua1 a r hs
  have hcons : ConsumedJti db' tok1.payload.id tok1.payload.jti := by
    have h' : Relation.ReflTransGen Step
        (refreshToken db (some tok1) jti1 now1 ip1 ua1).2 db' := hreach
    clear hreach hs
    induction h' with
    | refl => exact hcons0
    | tail hsteps hstep ih => exact consumed_step hstep _ _ ih
  obtain ⟨rr, hfr, hrev⟩ := hcons
  have hval : ∀ t : SignedToken, ∀ n : Nat,
      isRefreshTokenValid db'.tokens tok1.payload.id tok1.payload.jti t n
        = .invalid .revoked := by
    intro t n
    simp only [isRefreshTokenValid, hfr]
    rw [if_pos hrev]
  constructor
  · rw [hid, hjti]
    exact hval tok2 now2
  · cases hv2 : jwtVerify tok2 jwtRefreshSecret tokenIssuer tokenAudience now2 with
    | error e => simp [refreshToken, hv2]
    | ok decoded =>
      have hdec := jwtVerify_ok hv2
      subst hdec
      cases hfu : findById db'.users tok2.payload.id with
      | none => simp [refreshToken, hv2, hfu]
      | some user =>
        obtain ⟨huid, _⟩ := findById_some hfu
        cases hact : user.isActive with
        | false => simp [refreshToken, hv2, hfu, hact]
        | true =>
          by_cases hveq : tok2.payload.tokenVersion = some user.tokenVersion
          · have hval2 : isRefreshTokenValid db'.tokens user.id
                tok2.payload.jti tok2 now2 = .invalid .revoked := by
              rw [huid, hid, hjti]
              exact hval tok2 now2
            simp [refreshToken, hv2, hfu, hact, hveq, hval2]
          · simp [refreshToken, hv2, hfu, hact, hveq]

/-- Witness for C3: rotate the concrete refresh token once, then replay
the original token immediately — it is rejected. -/
theorem claim_C3_single_use_rotation_witness :
    isRefreshTokenValid
        (refreshToken wDb (some wRefreshTok) "j2" 10 none none).2.tokens
        wRefreshTok.payload.id wRefreshTok.payload.jti wRefreshTok 20
        = .invalid .revoked ∧
      (refreshToken (refreshToken wDb (some wRefreshTok) "j2" 10 none none).2
          (some wRefreshTok) "j3" 20 none none).1
        = .failure ⟨"Invalid refresh token", 401⟩ :=
  claim_C3_single_use_rotation wDb wRefreshTok "j2" 10 none none
    (signAccessToken ⟨"u1", .driver, some 0, "j2"⟩ 10)
    (signRefreshToken ⟨"u1", .driver, some 0, "j2"⟩ 10) rfl
    (refreshToken wDb (some wRefreshTok) "j2" 10 none none).2
    Relation.ReflTransGen.refl wRefreshTok "j3" 20 none none rfl rfl

end FleetZ
